import Mathlib

/-!
Verification of the collaborative-whiteboard core (camera transform, drawing
log serialization, remote sync bootstrap, interaction controller) against its
natural-language specification.  The definitions below are a shallow embedding
of the latest whiteboard revision (the component with camera pan/zoom) and of
the firebase bootstrap module; JavaScript numbers are modelled as exact
rationals, JavaScript values produced by `JSON.parse` as an inductive `Json`
tree, and the `JSON.parse` validity test as an executable parser.
-/

namespace CollabWhiteboard

/-- World-space point `{x, y}`. -/
structure Point where
  x : ℚ
  y : ℚ
deriving DecidableEq, Repr

/-- Drawing tool, the `'pen' | 'eraser'` union type. -/
inductive Tool where
  | pen
  | eraser
deriving DecidableEq, Repr

/-- One stroke segment (`Line` in the source): start/end world points, color,
world-space stroke size, and tool. -/
structure Line where
  start : Point
  stop : Point
  color : String
  size : ℚ
  tool : Tool
deriving DecidableEq, Repr

/-- Camera state: pan offsets in screen pixels and a zoom scale factor. -/
structure Camera where
  x : ℚ
  y : ℚ
  zoom : ℚ
deriving DecidableEq, Repr

/-- The reset camera `{ x: 0, y: 0, zoom: 1 }`. -/
def INITIAL_CAMERA : Camera := ⟨0, 0, 1⟩

/-- Screen-to-world conversion (`getCanvasPoint`):
`world = (client - rect - pan) / zoom`, componentwise. -/
def getCanvasPoint (camera : Camera) (clientX clientY rectLeft rectTop : ℚ) :
    Point :=
  ⟨(clientX - rectLeft - camera.x) / camera.zoom,
   (clientY - rectTop - camera.y) / camera.zoom⟩

/-- World-to-screen conversion, read off the render transform in
`redrawCanvas` (`ctx.translate(camX, camY); ctx.scale(zoom, zoom)`):
a world point is rasterized at `world * zoom + pan`. -/
def worldToScreen (w : Point) (camera : Camera) : Point :=
  ⟨w.x * camera.zoom + camera.x, w.y * camera.zoom + camera.y⟩

/-- Wheel-zoom handler (`handleWheel`): steps the zoom by the factor `1.1`
(up for `deltaY ≤ 0`, down for `deltaY > 0`), clamps it to `[0.1, 5]`, and
recomputes the pan so the world point under the mouse stays fixed. -/
def handleWheel (camera : Camera)
    (deltaY clientX clientY rectLeft rectTop : ℚ) : Camera :=
  let zoomFactor : ℚ := 11 / 10
  let newZoom := if 0 < deltaY then camera.zoom / zoomFactor
                 else camera.zoom * zoomFactor
  let clampedZoom := max (1 / 10) (min newZoom 5)
  let mouseX := clientX - rectLeft
  let mouseY := clientY - rectTop
  { x := mouseX - ((mouseX - camera.x) / camera.zoom) * clampedZoom,
    y := mouseY - ((mouseY - camera.y) / camera.zoom) * clampedZoom,
    zoom := clampedZoom }

/-- One camera-modifying operation of the interaction controller: a wheel
zoom, a pan-move step (`handlePanMove` adds the screen-space delta to the
pan), or the camera reset performed by `handleClearBoard`. -/
inductive CameraOp where
  | wheel (deltaY clientX clientY rectLeft rectTop : ℚ)
  | panMove (dx dy : ℚ)
  | clearReset
deriving DecidableEq, Repr

/-- Applies one camera-modifying operation. -/
def applyCameraOp (camera : Camera) : CameraOp → Camera
  | .wheel d cx cy rl rt => handleWheel camera d cx cy rl rt
  | .panMove dx dy => { camera with x := camera.x + dx, y := camera.y + dy }
  | .clearReset => INITIAL_CAMERA

/-- Applies a sequence of camera-modifying operations in order. -/
def applyCameraOps (camera : Camera) (ops : List CameraOp) : Camera :=
  ops.foldl applyCameraOp camera

lemma handleWheel_zoom_bounds (camera : Camera)
    (d cx cy rl rt : ℚ) :
    1 / 10 ≤ (handleWheel camera d cx cy rl rt).zoom ∧
      (handleWheel camera d cx cy rl rt).zoom ≤ 5 := by
  refine ⟨le_max_left _ _, max_le (by norm_num) (min_le_right _ _)⟩

lemma applyCameraOp_zoom_bounds (camera : Camera) (op : CameraOp)
    (h1 : 1 / 10 ≤ camera.zoom) (h2 : camera.zoom ≤ 5) :
    1 / 10 ≤ (applyCameraOp camera op).zoom ∧
      (applyCameraOp camera op).zoom ≤ 5 := by
  cases op with
  | wheel d cx cy rl rt => exact handleWheel_zoom_bounds camera d cx cy rl rt
  | panMove dx dy => exact ⟨h1, h2⟩
  | clearReset =>
      exact ⟨by norm_num [applyCameraOp, INITIAL_CAMERA],
             by norm_num [applyCameraOp, INITIAL_CAMERA]⟩

lemma applyCameraOps_zoom_bounds (ops : List CameraOp) :
    ∀ camera : Camera, 1 / 10 ≤ camera.zoom → camera.zoom ≤ 5 →
      1 / 10 ≤ (applyCameraOps camera ops).zoom ∧
        (applyCameraOps camera ops).zoom ≤ 5 := by
  induction ops with
  | nil => intro c h1 h2; exact ⟨h1, h2⟩
  | cons op rest ih =>
      intro c h1 h2
      have hstep := applyCameraOp_zoom_bounds c op h1 h2
      exact ih (applyCameraOp c op) hstep.1 hstep.2

/-- C1: Zoom anchor invariance.  For every camera whose zoom lies in
`[0.1, 5]` and every screen point, mapping the point to world coordinates
with the old camera (`getCanvasPoint`) and back to screen coordinates with
the wheel-zoomed camera yields the original canvas-relative screen point:
the point under the cursor does not move. -/
theorem zoom_anchor_invariance (camera : Camera)
    (deltaY clientX clientY rectLeft rectTop : ℚ)
    (hlo : 1 / 10 ≤ camera.zoom) (hhi : camera.zoom ≤ 5) :
    worldToScreen (getCanvasPoint camera clientX clientY rectLeft rectTop)
        (handleWheel camera deltaY clientX clientY rectLeft rectTop) =
      ⟨clientX - rectLeft, clientY - rectTop⟩ := by
  have hz : camera.zoom ≠ 0 := by
    intro h
    rw [h] at hlo
    norm_num at hlo
  simp only [worldToScreen, getCanvasPoint, handleWheel, Point.mk.injEq]
  constructor <;> (field_simp; try ring)

/-- Witness for C1 at a concrete camera and screen point. -/
theorem zoom_anchor_invariance_witness :
    (1 / 10 ≤ (Camera.mk 3 4 2).zoom ∧ (Camera.mk 3 4 2).zoom ≤ 5) ∧
      worldToScreen (getCanvasPoint ⟨3, 4, 2⟩ 100 50 10 20)
          (handleWheel ⟨3, 4, 2⟩ (-1) 100 50 10 20) = ⟨100 - 10, 50 - 20⟩ :=
  ⟨⟨by norm_num, by norm_num⟩,
   zoom_anchor_invariance ⟨3, 4, 2⟩ (-1) 100 50 10 20 (by norm_num) (by norm_num)⟩

/-- C2: Zoom clamp invariant.  Starting from a camera whose zoom lies in
`[0.1, 5]`, after any sequence of camera-modifying operations (wheel zoom,
pan move, clear reset) the zoom is still in `[0.1, 5]`, and in particular
stays strictly positive. -/
theorem zoom_clamp_invariant (camera : Camera) (ops : List CameraOp)
    (h1 : 1 / 10 ≤ camera.zoom) (h2 : camera.zoom ≤ 5) :
    1 / 10 ≤ (applyCameraOps camera ops).zoom ∧
      (applyCameraOps camera ops).zoom ≤ 5 ∧
      0 < (applyCameraOps camera ops).zoom := by
  have h := applyCameraOps_zoom_bounds ops camera h1 h2
  exact ⟨h.1, h.2, lt_of_lt_of_le (by norm_num) h.1⟩

/-- Witness for C2: repeated zoom-outs from zoom 1 stay within the clamp. -/
theorem zoom_clamp_invariant_witness :
    1 / 10 ≤ (applyCameraOps ⟨0, 0, 1⟩
        [CameraOp.wheel 1 0 0 0 0, CameraOp.wheel 1 0 0 0 0,
         CameraOp.panMove 7 9, CameraOp.clearReset,
         CameraOp.wheel (-1) 0 0 0 0]).zoom ∧
      (applyCameraOps ⟨0, 0, 1⟩
        [CameraOp.wheel 1 0 0 0 0, CameraOp.wheel 1 0 0 0 0,
         CameraOp.panMove 7 9, CameraOp.clearReset,
         CameraOp.wheel (-1) 0 0 0 0]).zoom ≤ 5 ∧
      0 < (applyCameraOps ⟨0, 0, 1⟩
        [CameraOp.wheel 1 0 0 0 0, CameraOp.wheel 1 0 0 0 0,
         CameraOp.panMove 7 9, CameraOp.clearReset,
         CameraOp.wheel (-1) 0 0 0 0]).zoom :=
  zoom_clamp_invariant ⟨0, 0, 1⟩ _ (by norm_num) (by norm_num)

/-- JavaScript value tree as produced by `JSON.parse` / consumed by
`JSON.stringify`.  Numbers are modelled as exact rationals (JavaScript's
stringify/parse pair round-trips every float64 exactly, so the numeric value
itself is preserved; we carry it exactly). -/
inductive Json where
  | null
  | bool (b : Bool)
  | num (q : ℚ)
  | str (s : String)
  | arr (elems : List Json)
  | obj (fields : List (String × Json))

/-- String written for a tool by `JSON.stringify`. -/
def toolString : Tool → String
  | .pen => "pen"
  | .eraser => "eraser"

/-- Tool read back from its serialized string. -/
def toolOfString (s : String) : Option Tool :=
  if s = "pen" then some Tool.pen
  else if s = "eraser" then some Tool.eraser
  else none

/-- Serialization of a `Point`, matching the object shape `JSON.stringify`
emits for `{x, y}` (insertion order of fields). -/
def encodePoint (p : Point) : Json :=
  .obj [("x", .num p.x), ("y", .num p.y)]

/-- Reading a serialized point back. -/
def decodePoint : Json → Option Point
  | .obj [("x", .num x), ("y", .num y)] => some ⟨x, y⟩
  | _ => none

/-- Serialization of a `Line`, matching the field insertion order of the
object literals built in `handleStartDrawing` / `draw`
(`start`, `end`, `color`, `size`, `tool`). -/
def encodeLine (l : Line) : Json :=
  .obj [("start", encodePoint l.start), ("end", encodePoint l.stop),
        ("color", .str l.color), ("size", .num l.size),
        ("tool", .str (toolString l.tool))]

/-- Reading a serialized line back. -/
def decodeLine : Json → Option Line
  | .obj [("start", s), ("end", e), ("color", .str c), ("size", .num sz),
          ("tool", .str t)] => do
      let start ← decodePoint s
      let stop ← decodePoint e
      let tool ← toolOfString t
      pure ⟨start, stop, c, sz, tool⟩
  | _ => none

/-- Option-valued traversal used to decode every element of a list. -/
def mapMOption (f : α → Option β) : List α → Option (List β)
  | [] => some []
  | a :: as => do
      let b ← f a
      let bs ← mapMOption f as
      pure (b :: bs)

/-- Serialization of the full drawing log, the tree-level model of
`JSON.stringify(linesToSave)` in `saveLinesToFirestore`. -/
def serializeLines (lines : List Line) : Json :=
  .arr (lines.map encodeLine)

/-- Reading a serialized drawing log back, the tree-level model of
`JSON.parse(fetchedLinesString)` followed by using the result as `Line[]`. -/
def deserializeLines : Json → Option (List Line)
  | .arr elems => mapMOption decodeLine elems
  | _ => none

lemma decodePoint_encodePoint (p : Point) :
    decodePoint (encodePoint p) = some p := by
  cases p
  rfl

lemma decodeLine_encodeLine (l : Line) :
    decodeLine (encodeLine l) = some l := by
  obtain ⟨s, e, c, sz, t⟩ := l
  cases t <;>
    simp [encodeLine, decodeLine, decodePoint_encodePoint, toolString,
      toolOfString, encodePoint, decodePoint, Option.bind]

/-- C3: Round-trip serialization.  For every list of segments, reading back
the serialized form reproduces the list exactly: same length, same order,
identical field values (coordinates, color, size, tool). -/
theorem serialize_round_trip (lines : List Line) :
    deserializeLines (serializeLines lines) = some lines := by
  induction lines with
  | nil => rfl
  | cons l rest ih =>
      simp only [serializeLines, deserializeLines, List.map_cons, mapMOption,
        decodeLine_encodeLine, Option.bind_eq_bind, Option.some_bind]
      simp only [serializeLines, deserializeLines] at ih
      simp [ih]

/-- Opening curly bracket character. -/
def lcurly : Char := Char.ofNat 123

/-- Closing curly bracket character. -/
def rcurly : Char := Char.ofNat 125

/-- Skips JSON whitespace. -/
def skipWs : List Char → List Char
  | c :: cs =>
      if c = ' ' ∨ c = '\t' ∨ c = '\n' ∨ c = '\r' then skipWs cs else c :: cs
  | [] => []

/-- Numeric value of a decimal digit. -/
def digitVal (c : Char) : Option Nat :=
  if '0' ≤ c ∧ c ≤ '9' then some (c.toNat - '0'.toNat) else none

/-- Reads a maximal run of decimal digits, returning the accumulated value,
the number of digits read, and the rest of the input. -/
def readDigits (acc count : Nat) : List Char → Nat × Nat × List Char
  | [] => (acc, count, [])
  | c :: cs =>
      match digitVal c with
      | some d => readDigits (acc * 10 + d) (count + 1) cs
      | none => (acc, count, c :: cs)

/-- Parses a JSON number literal into an exact rational. -/
def parseNumber (s : List Char) : Option (ℚ × List Char) :=
  let (neg, s1) := match s with
    | '-' :: r => (true, r)
    | _ => (false, s)
  match readDigits 0 0 s1 with
  | (_, 0, _) => none
  | (intPart, _, s2) =>
      let fracStep : Option (Nat × Nat × List Char) := match s2 with
        | '.' :: r =>
            match readDigits 0 0 r with
            | (_, 0, _) => none
            | (f, n, r2) => some (f, n, r2)
        | _ => some (0, 0, s2)
      match fracStep with
      | none => none
      | some (frac, fracDigits, s3) =>
          let expStep : Option (Int × List Char) := match s3 with
            | 'e' :: r | 'E' :: r =>
                let (esign, r1) : Bool × List Char := match r with
                  | '-' :: r2 => (true, r2)
                  | '+' :: r2 => (false, r2)
                  | _ => (false, r)
                match readDigits 0 0 r1 with
                | (_, 0, _) => none
                | (e, _, r2) =>
                    some (if esign then -(e : Int) else (e : Int), r2)
            | _ => some (0, s3)
          match expStep with
          | none => none
          | some (exp, s4) =>
              let mantissa : ℚ :=
                (intPart : ℚ) + (frac : ℚ) / ((10 : ℚ) ^ fracDigits)
              let value := mantissa * (10 : ℚ) ^ exp
              some (if neg then -value else value, s4)

/-- Converts four hex digits into a character code. -/
def hexVal (c : Char) : Option Nat :=
  if '0' ≤ c ∧ c ≤ '9' then some (c.toNat - '0'.toNat)
  else if 'a' ≤ c ∧ c ≤ 'f' then some (c.toNat - 'a'.toNat + 10)
  else if 'A' ≤ c ∧ c ≤ 'F' then some (c.toNat - 'A'.toNat + 10)
  else none

/-- Parses the body of a JSON string literal (the opening quote already
consumed), handling the escape sequences `JSON.parse` accepts. -/
def parseStringBody (acc : List Char) : List Char → Option (String × List Char)
  | [] => none
  | '"' :: rest => some (String.mk acc.reverse, rest)
  | '\\' :: rest =>
      match rest with
      | [] => none
      | e :: rest2 =>
          if e = '"' then parseStringBody ('"' :: acc) rest2
          else if e = '\\' then parseStringBody ('\\' :: acc) rest2
          else if e = '/' then parseStringBody ('/' :: acc) rest2
          else if e = 'b' then parseStringBody (Char.ofNat 8 :: acc) rest2
          else if e = 'f' then parseStringBody (Char.ofNat 12 :: acc) rest2
          else if e = 'n' then parseStringBody ('\n' :: acc) rest2
          else if e = 'r' then parseStringBody ('\r' :: acc) rest2
          else if e = 't' then parseStringBody ('\t' :: acc) rest2
          else if e = 'u' then
            match rest2 with
            | h1 :: h2 :: h3 :: h4 :: rest3 =>
                match hexVal h1, hexVal h2, hexVal h3, hexVal h4 with
                | some a, some b, some c, some d =>
                    parseStringBody
                      (Char.ofNat (((a * 16 + b) * 16 + c) * 16 + d) :: acc)
                      rest3
                | _, _, _, _ => none
            | _ => none
          else none
  | c :: rest => parseStringBody (c :: acc) rest

mutual

/-- Parses one JSON value; `fuel` bounds the nesting recursion. -/
def parseValue : Nat → List Char → Option (Json × List Char)
  | 0, _ => none
  | Nat.succ fuel, s =>
      match skipWs s with
      | 'n' :: 'u' :: 'l' :: 'l' :: rest => some (Json.null, rest)
      | 't' :: 'r' :: 'u' :: 'e' :: rest => some (Json.bool true, rest)
      | 'f' :: 'a' :: 'l' :: 's' :: 'e' :: rest => some (Json.bool false, rest)
      | '"' :: rest =>
          (parseStringBody [] rest).map (fun p => (Json.str p.1, p.2))
      | '[' :: rest =>
          (match skipWs rest with
           | ']' :: r2 => some (Json.arr [], r2)
           | r2 => (parseElems fuel r2).map (fun p => (Json.arr p.1, p.2)))
      | c :: rest =>
          if c = lcurly then
            (match skipWs rest with
             | r2 =>
                 if r2.headD ' ' = rcurly then some (Json.obj [], r2.tail)
                 else (parseFields fuel r2).map (fun p => (Json.obj p.1, p.2)))
          else (parseNumber (c :: rest)).map (fun p => (Json.num p.1, p.2))
      | [] => none

/-- Parses the comma-separated elements of a non-empty JSON array, up to and
including the closing bracket. -/
def parseElems : Nat → List Char → Option (List Json × List Char)
  | 0, _ => none
  | Nat.succ fuel, s => do
      let (v, r) ← parseValue fuel s
      match skipWs r with
      | ',' :: r2 => do
          let (vs, r3) ← parseElems fuel r2
          pure (v :: vs, r3)
      | ']' :: r2 => pure ([v], r2)
      | _ => none

/-- Parses the comma-separated members of a non-empty JSON object, up to and
including the closing bracket. -/
def parseFields : Nat → List Char → Option (List (String × Json) × List Char)
  | 0, _ => none
  | Nat.succ fuel, s =>
      match skipWs s with
      | '"' :: rest => do
          let (key, r) ← parseStringBody [] rest
          match skipWs r with
          | ':' :: r2 => do
              let (v, r3) ← parseValue fuel r2
              (match skipWs r3 with
               | ',' :: r4 => do
                   let (fs, r5) ← parseFields fuel r4
                   pure ((key, v) :: fs, r5)
               | c :: r4 =>
                   if c = rcurly then pure ([(key, v)], r4) else none
               | [] => none)
          | _ => none
      | _ => none

end

/-- Executable model of `JSON.parse`: `none` exactly when `JSON.parse`
would throw a `SyntaxError` on the given string. -/
def JSONparse (s : String) : Option Json :=
  match parseValue (s.length + 1) s.data with
  | some (j, rest) => if skipWs rest = [] then some j else none
  | none => none

/-- String handed to `JSON.parse` by the snapshot and initial-fetch handlers:
`data?.lines || '[]'`.  An absent field and the empty string are both falsy
in JavaScript, so both are replaced by `"[]"`. -/
def fetchedLinesString (field : Option String) : String :=
  match field with
  | some s => if s = "" then "[]" else s
  | none => "[]"

/-- The `onSnapshot` callback of `initializeDataAndListener`: for a snapshot
of an existing document it parses the `lines` field string and replaces the
in-memory log with whatever `JSON.parse` returned; if `JSON.parse` throws,
the catch block only logs and the log is left untouched; a snapshot of an
absent document changes nothing.  The in-memory log is the dynamic
JavaScript value held in `state.lines`, hence has type `Json` here. -/
def snapshotCallback (docSnapshot : Option (Option String))
    (currentLines : Json) : Json :=
  match docSnapshot with
  | none => currentLines
  | some field =>
      match JSONparse (fetchedLinesString field) with
      | some parsed => parsed
      | none => currentLines

/-- Observable steps of the bootstrap routine `initializeDataAndListener`. -/
inductive SyncEvent where
  | initialRead (docSnapshot : Option (Option String))
  | applyInitialLines (lines : Json)
  | initialReadFailed
  | attachListener
  | markReady

/-- Trace of `initializeDataAndListener`: it awaits the one-time `getDoc`
(applying its `lines` payload to the local state if the document exists and
parses, logging on failure), and only then attaches the `onSnapshot`
listener and sets `isContentReady`.  The input is the outcome of the initial
point-read: a thrown error, an absent document, or the document's `lines`
field. -/
def initializeDataAndListener
    (fetchResult : Except Unit (Option (Option String))) : List SyncEvent :=
  (match fetchResult with
   | .error _ => [SyncEvent.initialReadFailed]
   | .ok none => [SyncEvent.initialRead none]
   | .ok (some field) =>
       match JSONparse (fetchedLinesString field) with
       | some parsed =>
           [SyncEvent.initialRead (some field),
            SyncEvent.applyInitialLines parsed]
       | none =>
           [SyncEvent.initialRead (some field), SyncEvent.initialReadFailed])
  ++ [SyncEvent.attachListener, SyncEvent.markReady]

/-- Events that belong to processing the initial point-read. -/
def isInitialReadEvent : SyncEvent → Bool
  | .initialRead _ => true
  | .applyInitialLines _ => true
  | .initialReadFailed => true
  | .attachListener => false
  | .markReady => false

/-- Payload of one `setDoc` call: the serialized `lines` field and the
`merge` flag (`merge: false` means the remote document is overwritten). -/
structure WriteOp where
  linesField : Json
  merge : Bool

/-- The component's `saveLinesToFirestore`: skipped (returns `none`) only
when `db` or `appId` is falsy; otherwise issues a full-document overwrite
carrying `JSON.stringify(linesToSave)`. -/
def saveLinesToFirestore (db : Bool) (appId : String)
    (linesToSave : List Line) : Option WriteOp :=
  if db = false ∨ appId = "" then none
  else some ⟨serializeLines linesToSave, false⟩

/-- Component state of the whiteboard relevant to the event handlers.
`db = true` models a non-null Firestore handle; `appId = ""` models a falsy
application id. -/
structure AppState where
  isDrawing : Bool
  isPanning : Bool
  lines : List Line
  currentTool : Tool
  currentColor : String
  currentSize : ℚ
  camera : Camera
  lastPoint : Option Point
  db : Bool
  appId : String
  isContentReady : Bool
deriving DecidableEq, Repr

/-- One touch point's client coordinates. -/
structure Touch where
  clientX : ℚ
  clientY : ℚ
deriving DecidableEq, Repr

/-- A browser event as the handlers see it: `clientX`/`clientY` are present
(`some`) on mouse events and absent (`none`, i.e. `undefined`) on touch
events; `touches` is the touch list (empty for mouse events, where reading
`touches[0]` throws); `button` is the mouse button (`0` models the
`undefined` button of touch events, which compares unequal to `1`). -/
structure InputEvent where
  clientX : Option ℚ
  clientY : Option ℚ
  touches : List Touch
  button : Nat
deriving DecidableEq, Repr

/-- A mouse event: client coordinates present, no `touches` list. -/
def mouseEvent (clientX clientY : ℚ) (button : Nat) : InputEvent :=
  ⟨some clientX, some clientY, [], button⟩

/-- The coordinate extraction
`(e as MouseEvent).clientX || (e as TouchEvent).touches[0].clientX`: a
truthy (non-zero) mouse coordinate is used directly; otherwise
`touches[0].clientX` is evaluated, which throws a TypeError (`none`) when
there is no first touch — in particular for every mouse event with a zero
client coordinate. -/
def extractClientX (e : InputEvent) : Option ℚ :=
  match e.clientX with
  | some cx =>
      if cx = 0 then (e.touches.head?).map Touch.clientX else some cx
  | none => (e.touches.head?).map Touch.clientX

/-- The same extraction for the `clientY` coordinate. -/
def extractClientY (e : InputEvent) : Option ℚ :=
  match e.clientY with
  | some cy =>
      if cy = 0 then (e.touches.head?).map Touch.clientY else some cy
  | none => (e.touches.head?).map Touch.clientY

/-- `handleStartDrawing`: returns before anything else until
`isContentReady`; then extracts the client coordinates (which can throw — an
`Except.error` models the TypeError escaping the handler with no state
change applied); a middle click starts panning (storing the raw screen
point); otherwise converts the point to world coordinates, records it as the
pending last point, enters drawing mode, and appends the zero-length dot
segment built from the current tool state. -/
def handleStartDrawing (s : AppState) (e : InputEvent)
    (rectLeft rectTop : ℚ) : Except Unit AppState :=
  if s.isContentReady = false then Except.ok s
  else
    match extractClientX e, extractClientY e with
    | some clientX, some clientY =>
        if e.button = 1 then
          Except.ok { s with isPanning := true,
                             lastPoint := some ⟨clientX, clientY⟩ }
        else
          let point := getCanvasPoint s.camera clientX clientY rectLeft rectTop
          let dotLine : Line :=
            ⟨point, point, s.currentColor, s.currentSize, s.currentTool⟩
          Except.ok { s with lastPoint := some point, isDrawing := true,
                             lines := s.lines ++ [dotLine] }
    | _, _ => Except.error ()

/-- `draw` (invoked only by the document `mousemove` listener): after the
drawing-mode guard, extracts the client coordinates (which can throw, see
`extractClientX`), converts them to world coordinates, appends one segment
from the previous sample point to the new point using the current tool
state, and advances the last point. -/
def draw (s : AppState) (e : InputEvent) (rectLeft rectTop : ℚ) :
    Except Unit AppState :=
  match s.isDrawing, s.lastPoint with
  | true, some lp =>
      match extractClientX e, extractClientY e with
      | some clientX, some clientY =>
          let newPoint := getCanvasPoint s.camera clientX clientY rectLeft rectTop
          let newLine : Line :=
            ⟨lp, newPoint, s.currentColor, s.currentSize, s.currentTool⟩
          Except.ok { s with lines := s.lines ++ [newLine],
                             lastPoint := some newPoint }
      | _, _ => Except.error ()
  | _, _ => Except.ok s

/-- Dispatch of a pointer-down on the canvas: an exception thrown inside the
handler escapes to the event loop and the state update never happens. -/
def dispatchStart (s : AppState) (e : InputEvent) (rectLeft rectTop : ℚ) :
    AppState :=
  match handleStartDrawing s e rectLeft rectTop with
  | Except.ok s2 => s2
  | Except.error _ => s

/-- One pointer-move observed during a stroke: either a mouse move or a
touch move. -/
inductive MoveEvent where
  | mouseMove (clientX clientY : ℚ)
  | touchMove (touches : List Touch)
deriving DecidableEq, Repr

/-- Document-level dispatch of one move event, per the listener registration
in this revision: `mousemove` invokes `draw` (a thrown TypeError escapes and
leaves the state unchanged); no `touchmove` listener is registered, so touch
moves never reach `draw` at all. -/
def dispatchMove (s : AppState) (m : MoveEvent) (rectLeft rectTop : ℚ) :
    AppState :=
  match m with
  | .mouseMove cx cy =>
      match draw s (mouseEvent cx cy 0) rectLeft rectTop with
      | Except.ok s2 => s2
      | Except.error _ => s
  | .touchMove _ => s

/-- Folds a sequence of dispatched move events through `dispatchMove`. -/
def applyStrokeMoves (s : AppState) (moves : List MoveEvent)
    (rectLeft rectTop : ℚ) : AppState :=
  moves.foldl (fun st m => dispatchMove st m rectLeft rectTop) s

/-- `handleClearBoard`: empties the local log, issues a save of the empty
list, and resets the camera. -/
def handleClearBoard (s : AppState) : AppState × Option WriteOp :=
  ({ s with lines := [], camera := INITIAL_CAMERA },
   saveLinesToFirestore s.db s.appId [])

/-- C4: Clear resets both and propagates.  When the Firestore handle and the
application id are truthy, `handleClearBoard` empties the drawing log, resets
the camera to `{0, 0, 1}`, and issues a remote write (not skipped) that
overwrites the document (`merge: false`) with the serialization of the empty
list. -/
theorem clear_resets_and_saves (s : AppState)
    (hdb : s.db = true) (happ : s.appId ≠ "") :
    (handleClearBoard s).1.lines = [] ∧
      (handleClearBoard s).1.camera = INITIAL_CAMERA ∧
      (handleClearBoard s).2 = some ⟨serializeLines [], false⟩ := by
  refine ⟨rfl, rfl, ?_⟩
  simp [handleClearBoard, saveLinesToFirestore, hdb, happ]

/-- Witness for C4 at a concrete connected component state. -/
theorem clear_resets_and_saves_witness :
    (handleClearBoard ⟨false, false, [⟨⟨1, 2⟩, ⟨3, 4⟩, "#000000", 5, Tool.pen⟩],
        Tool.pen, "#000000", 5, ⟨7, 8, 2⟩, none, true, "default-app-id",
        true⟩).1.lines = [] ∧
      (handleClearBoard ⟨false, false, [⟨⟨1, 2⟩, ⟨3, 4⟩, "#000000", 5, Tool.pen⟩],
        Tool.pen, "#000000", 5, ⟨7, 8, 2⟩, none, true, "default-app-id",
        true⟩).1.camera = INITIAL_CAMERA ∧
      (handleClearBoard ⟨false, false, [⟨⟨1, 2⟩, ⟨3, 4⟩, "#000000", 5, Tool.pen⟩],
        Tool.pen, "#000000", 5, ⟨7, 8, 2⟩, none, true, "default-app-id",
        true⟩).2 = some ⟨serializeLines [], false⟩ :=
  clear_resets_and_saves _ rfl (by decide)

/-- C5 counterexample: the empty string is not valid JSON (`JSON.parse("")`
throws), yet processing a snapshot whose `lines` field is the empty string
does not leave the log unchanged — the `|| '[]'` default substitutes `"[]"`
and the in-memory log is replaced by the empty array, i.e. the board is
cleared. -/
theorem corrupt_payload_counterexample :
    JSONparse "" = none ∧
      snapshotCallback (some (some "")) (Json.arr [Json.num 1]) = Json.arr [] ∧
      Json.arr [] ≠ Json.arr [Json.num 1] :=
  ⟨rfl, rfl, by simp⟩

/-- C5 (amended): for every current log and every snapshot whose `lines`
field is a non-empty string that is not valid JSON, the callback leaves the
in-memory log exactly as it was. -/
theorem corrupt_payload_keeps_log (s : String) (currentLines : Json)
    (hcorrupt : JSONparse s = none) (hne : s ≠ "") :
    snapshotCallback (some (some s)) currentLines = currentLines := by
  simp [snapshotCallback, fetchedLinesString, hne, hcorrupt]

/-- Witness for the amended C5 at a concrete truncated payload. -/
theorem corrupt_payload_keeps_log_witness :
    JSONparse "[1,2" = none ∧ "[1,2" ≠ "" ∧
      snapshotCallback (some (some "[1,2")) (Json.str "keep") =
        Json.str "keep" :=
  ⟨rfl, by decide, corrupt_payload_keeps_log "[1,2" (Json.str "keep") rfl (by decide)⟩

/-- C7: Bootstrap ordering.  For every outcome of the initial point-read,
the bootstrap trace consists of the initial-read processing events followed
by `attachListener` and then `markReady`: the subscription is attached
strictly after the initial read has been processed, so no subscription
callback can run before it. -/
theorem bootstrap_read_before_subscribe
    (fetchResult : Except Unit (Option (Option String))) :
    ∃ p : List SyncEvent,
      initializeDataAndListener fetchResult =
          p ++ [SyncEvent.attachListener, SyncEvent.markReady] ∧
        ∀ e ∈ p, isInitialReadEvent e = true := by
  cases fetchResult with
  | error u =>
      exact ⟨[SyncEvent.initialReadFailed], rfl, by
        intro e he
        simp only [List.mem_singleton] at he
        subst he
        rfl⟩
  | ok d =>
      cases d with
      | none =>
          exact ⟨[SyncEvent.initialRead none], rfl, by
            intro e he
            simp only [List.mem_singleton] at he
            subst he
            rfl⟩
      | some field =>
          cases hp : JSONparse (fetchedLinesString field) with
          | none =>
              refine ⟨[SyncEvent.initialRead (some field),
                       SyncEvent.initialReadFailed], ?_, ?_⟩
              · simp [initializeDataAndListener, hp]
              · intro e he
                simp only [List.mem_cons, List.mem_singleton,
                  List.not_mem_nil, or_false] at he
                rcases he with he | he <;> (subst he; rfl)
          | some parsed =>
              refine ⟨[SyncEvent.initialRead (some field),
                       SyncEvent.applyInitialLines parsed], ?_, ?_⟩
              · simp [initializeDataAndListener, hp]
              · intro e he
                simp only [List.mem_cons, List.mem_singleton,
                  List.not_mem_nil, or_false] at he
                rcases he with he | he <;> (subst he; rfl)

/-- Expected contents of one stroke, written from the spec's words: a chain
of segments linking consecutive sampled world points with the current tool
state. -/
def specChain (tool : Tool) (color : String) (size : ℚ) :
    Point → List Point → List Line
  | _, [] => []
  | p, q :: qs => ⟨p, q, color, size, tool⟩ :: specChain tool color size q qs

/-- Expected stroke per the spec: one zero-length dot at the converted
pointer-down client point, then one segment per pointer-move linking the
consecutive converted sample points. -/
def specStroke (s : AppState) (cx0 cy0 : ℚ) (moves : List (ℚ × ℚ))
    (rectLeft rectTop : ℚ) : List Line :=
  let p0 := getCanvasPoint s.camera cx0 cy0 rectLeft rectTop
  ⟨p0, p0, s.currentColor, s.currentSize, s.currentTool⟩ ::
    specChain s.currentTool s.currentColor s.currentSize p0
      (moves.map (fun m => getCanvasPoint s.camera m.1 m.2 rectLeft rectTop))

lemma specChain_length (tool : Tool) (color : String) (size : ℚ) :
    ∀ (p : Point) (ps : List Point),
      (specChain tool color size p ps).length = ps.length := by
  intro p ps
  induction ps generalizing p with
  | nil => rfl
  | cons q qs ih => simp [specChain, ih]

lemma applyStrokeMoves_lines (rectLeft rectTop : ℚ) (moves : List (ℚ × ℚ)) :
    ∀ (st : AppState) (p : Point),
      st.isDrawing = true → st.lastPoint = some p →
      (∀ m ∈ moves, m.1 ≠ 0 ∧ m.2 ≠ 0) →
      (applyStrokeMoves st
          (moves.map (fun m => MoveEvent.mouseMove m.1 m.2)) rectLeft rectTop).lines =
        st.lines ++ specChain st.currentTool st.currentColor st.currentSize p
          (moves.map (fun m => getCanvasPoint st.camera m.1 m.2 rectLeft rectTop)) := by
  induction moves with
  | nil =>
      intro st p h1 h2 hnz
      simp [applyStrokeMoves, specChain]
  | cons m rest ih =>
      intro st p h1 h2 hnz
      obtain ⟨d, pn, ln, tl, cl, sz, cam, lp, db, app, rdy⟩ := st
      simp only at h1 h2
      subst h1
      subst h2
      have hmx : m.1 ≠ 0 := (hnz m (by simp)).1
      have hmy : m.2 ≠ 0 := (hnz m (by simp)).2
      simp only [List.map_cons, applyStrokeMoves, List.foldl_cons]
      have hd : dispatchMove ⟨true, pn, ln, tl, cl, sz, cam, some p, db, app, rdy⟩
            (MoveEvent.mouseMove m.1 m.2) rectLeft rectTop =
          ⟨true, pn,
           ln ++ [⟨p, getCanvasPoint cam m.1 m.2 rectLeft rectTop, cl, sz, tl⟩],
           tl, cl, sz, cam,
           some (getCanvasPoint cam m.1 m.2 rectLeft rectTop),
           db, app, rdy⟩ := by
        simp [dispatchMove, draw, mouseEvent, extractClientX, extractClientY,
          hmx, hmy]
      rw [hd]
      have hrest := ih
        ⟨true, pn, ln ++ [⟨p, getCanvasPoint cam m.1 m.2 rectLeft rectTop,
           cl, sz, tl⟩], tl, cl, sz, cam,
         some (getCanvasPoint cam m.1 m.2 rectLeft rectTop),
         db, app, rdy⟩
        (getCanvasPoint cam m.1 m.2 rectLeft rectTop) rfl rfl
        (fun x hx => hnz x (by simp [hx]))
      simp only [applyStrokeMoves] at hrest
      rw [hrest]
      simp [specChain, List.append_assoc]

/-- C8 counterexample: the claim fails on the code at concrete inputs.  From
a ready empty board, a mouse-down at (100, 100) followed by one mouse move
at client point (0, 5) leaves the log at length 1, not 0 + (1 + 1): the
extraction `clientX || touches[0].clientX` finds `clientX = 0` falsy, reads
`touches[0]` of a mouse event, and throws a TypeError before appending
(third conjunct).  Likewise a touch stroke — touch-start with one touch at
(10, 10), then a touch move to (20, 20) — appends only the dot, because this
revision registers no `touchmove` listener, so the move never reaches
`draw`. -/
theorem stroke_append_shape_counterexample :
    (applyStrokeMoves
        (dispatchStart ⟨false, false, [], Tool.pen, "#000000", 5, ⟨0, 0, 1⟩,
          none, true, "default-app-id", true⟩ (mouseEvent 100 100 0) 0 0)
        [MoveEvent.mouseMove 0 5] 0 0).lines.length = 1 ∧
      (1 : Nat) ≠ 0 + (1 + 1) ∧
      draw (dispatchStart ⟨false, false, [], Tool.pen, "#000000", 5, ⟨0, 0, 1⟩,
          none, true, "default-app-id", true⟩ (mouseEvent 100 100 0) 0 0)
        (mouseEvent 0 5 0) 0 0 = Except.error () ∧
      (applyStrokeMoves
        (dispatchStart ⟨false, false, [], Tool.pen, "#000000", 5, ⟨0, 0, 1⟩,
          none, true, "default-app-id", true⟩ ⟨none, none, [⟨10, 10⟩], 0⟩ 0 0)
        [MoveEvent.touchMove [⟨20, 20⟩]] 0 0).lines.length = 1 :=
  ⟨by decide, by decide, rfl, by decide⟩

/-- C8 (amended): Stroke append shape for mouse strokes away from zero
client coordinates.  With the board ready, a non-middle-button mouse-down
with non-zero client coordinates followed by `N` mouse moves with non-zero
client coordinates grows the log by exactly the expected stroke — one
zero-length dot built from the current tool state plus one segment per move
linking consecutive sample points — `N + 1` segments in total and nothing
else.  (A zero client coordinate makes the `||` extraction throw and append
nothing for that event, and touch moves never reach `draw`; see the
counterexample.) -/
theorem mouse_stroke_append_shape (s : AppState) (cx0 cy0 : ℚ) (b : Nat)
    (moves : List (ℚ × ℚ)) (rectLeft rectTop : ℚ)
    (hready : s.isContentReady = true) (hbtn : b ≠ 1)
    (hx0 : cx0 ≠ 0) (hy0 : cy0 ≠ 0)
    (hmoves : ∀ m ∈ moves, m.1 ≠ 0 ∧ m.2 ≠ 0) :
    (applyStrokeMoves (dispatchStart s (mouseEvent cx0 cy0 b) rectLeft rectTop)
        (moves.map (fun m => MoveEvent.mouseMove m.1 m.2)) rectLeft rectTop).lines =
        s.lines ++ specStroke s cx0 cy0 moves rectLeft rectTop ∧
      (applyStrokeMoves (dispatchStart s (mouseEvent cx0 cy0 b) rectLeft rectTop)
          (moves.map (fun m => MoveEvent.mouseMove m.1 m.2)) rectLeft rectTop).lines.length =
        s.lines.length + (moves.length + 1) := by
  have hstart : dispatchStart s (mouseEvent cx0 cy0 b) rectLeft rectTop =
      { s with
        lastPoint := some (getCanvasPoint s.camera cx0 cy0 rectLeft rectTop),
        isDrawing := true,
        lines := s.lines ++
          [⟨getCanvasPoint s.camera cx0 cy0 rectLeft rectTop,
            getCanvasPoint s.camera cx0 cy0 rectLeft rectTop,
            s.currentColor, s.currentSize, s.currentTool⟩] } := by
    simp [dispatchStart, handleStartDrawing, mouseEvent, extractClientX,
      extractClientY, hready, hbtn, hx0, hy0]
  have hlines := applyStrokeMoves_lines rectLeft rectTop moves
    ({ s with
       lastPoint := some (getCanvasPoint s.camera cx0 cy0 rectLeft rectTop),
       isDrawing := true,
       lines := s.lines ++
         [⟨getCanvasPoint s.camera cx0 cy0 rectLeft rectTop,
           getCanvasPoint s.camera cx0 cy0 rectLeft rectTop,
           s.currentColor, s.currentSize, s.currentTool⟩] })
    (getCanvasPoint s.camera cx0 cy0 rectLeft rectTop) rfl rfl hmoves
  rw [hstart]
  constructor
  · rw [hlines]
    simp [specStroke, List.append_assoc]
  · rw [hlines]
    simp [specChain_length, specStroke]

/-- Witness for the amended C8: a concrete two-sample mouse stroke away from
the axes appends the dot plus one segment. -/
theorem mouse_stroke_append_shape_witness :
    (applyStrokeMoves
        (dispatchStart ⟨false, false, [], Tool.pen, "#000000", 5, ⟨0, 0, 1⟩,
            none, true, "default-app-id", true⟩ (mouseEvent 100 100 0) 0 0)
        (List.map (fun m => MoveEvent.mouseMove m.1 m.2)
          [((110 : ℚ), (100 : ℚ))]) 0 0).lines =
        (⟨false, false, [], Tool.pen, "#000000", 5, ⟨0, 0, 1⟩,
            none, true, "default-app-id", true⟩ : AppState).lines ++
          specStroke ⟨false, false, [], Tool.pen, "#000000", 5, ⟨0, 0, 1⟩,
            none, true, "default-app-id", true⟩ 100 100
            [((110 : ℚ), (100 : ℚ))] 0 0 ∧
      (applyStrokeMoves
          (dispatchStart ⟨false, false, [], Tool.pen, "#000000", 5, ⟨0, 0, 1⟩,
              none, true, "default-app-id", true⟩ (mouseEvent 100 100 0) 0 0)
          (List.map (fun m => MoveEvent.mouseMove m.1 m.2)
            [((110 : ℚ), (100 : ℚ))]) 0 0).lines.length =
        (⟨false, false, [], Tool.pen, "#000000", 5, ⟨0, 0, 1⟩,
            none, true, "default-app-id", true⟩ : AppState).lines.length +
          (List.length [((110 : ℚ), (100 : ℚ))] + 1) :=
  mouse_stroke_append_shape
    ⟨false, false, [], Tool.pen, "#000000", 5, ⟨0, 0, 1⟩,
      none, true, "default-app-id", true⟩
    100 100 0 [((110 : ℚ), (100 : ℚ))] 0 0
    rfl (by decide) (by decide) (by decide) (by decide)

/-- Shared helper: a pointer-down arriving before the board is ready returns
the state unchanged without raising — the early return precedes even the
throwing coordinate extraction. -/
lemma handleStartDrawing_not_ready (s : AppState) (e : InputEvent)
    (rectLeft rectTop : ℚ) (h : s.isContentReady = false) :
    handleStartDrawing s e rectLeft rectTop = Except.ok s := by
  simp [handleStartDrawing, h]

/-- C9: Readiness gate.  Every pointer-down event (drawing or panning alike,
mouse or touch) that arrives before bootstrap has set `isContentReady` is
silently ignored: the handler returns the state unchanged — same log, same
camera, same drawing and panning flags — and raises no error, since the
early return precedes the throwing coordinate extraction. -/
theorem readiness_gate (s : AppState) (e : InputEvent)
    (rectLeft rectTop : ℚ) (h : s.isContentReady = false) :
    handleStartDrawing s e rectLeft rectTop = Except.ok s :=
  handleStartDrawing_not_ready s e rectLeft rectTop h

/-- Witness for C9 at a concrete not-yet-ready state: a primary mouse-down,
a middle-button mouse-down, and a zero-coordinate mouse-down (which would
throw were the board ready) are all silently ignored. -/
theorem readiness_gate_witness :
    handleStartDrawing ⟨false, false, [], Tool.pen, "#000000", 5, ⟨0, 0, 1⟩,
        none, true, "default-app-id", false⟩ (mouseEvent 33 44 0) 0 0 =
      Except.ok ⟨false, false, [], Tool.pen, "#000000", 5, ⟨0, 0, 1⟩,
        none, true, "default-app-id", false⟩ ∧
    handleStartDrawing ⟨false, false, [], Tool.pen, "#000000", 5, ⟨0, 0, 1⟩,
        none, true, "default-app-id", false⟩ (mouseEvent 33 44 1) 0 0 =
      Except.ok ⟨false, false, [], Tool.pen, "#000000", 5, ⟨0, 0, 1⟩,
        none, true, "default-app-id", false⟩ ∧
    handleStartDrawing ⟨false, false, [], Tool.pen, "#000000", 5, ⟨0, 0, 1⟩,
        none, true, "default-app-id", false⟩ (mouseEvent 0 0 0) 0 0 =
      Except.ok ⟨false, false, [], Tool.pen, "#000000", 5, ⟨0, 0, 1⟩,
        none, true, "default-app-id", false⟩ :=
  ⟨readiness_gate _ (mouseEvent 33 44 0) 0 0 rfl,
   readiness_gate _ (mouseEvent 33 44 1) 0 0 rfl,
   readiness_gate _ (mouseEvent 0 0 0) 0 0 rfl⟩

/-- JavaScript `a || b` on a possibly-null, possibly-empty string: a null or
empty (falsy) left operand yields the right operand. -/
def jsOr (s : Option String) (d : String) : String :=
  match s with
  | some v => if v = "" then d else v
  | none => d

/-- Module-level singletons of `firebase.ts` (`app`, `auth`, `db`,
`currentUserId`, `isInitialized`); `true`/`some` models a non-null value. -/
structure FirebaseModule where
  app : Bool
  auth : Bool
  db : Bool
  currentUserId : Option String
  isInitialized : Bool
deriving DecidableEq, Repr

/-- The module state before the first call. -/
def initialFirebaseModule : FirebaseModule := ⟨false, false, false, none, false⟩

/-- Environment of one `initializeFirebase` run: the `__app_id` global,
whether configuration parsing and service setup succeed, whether sign-in
succeeds and with which uid, and the value `crypto.randomUUID()` would
produce. -/
structure FirebaseEnv where
  appIdVar : Option String
  configValid : Bool
  authSucceeds : Bool
  authUid : String
  randomUUID : String
deriving DecidableEq, Repr

/-- Result object of a successful `initializeFirebase` call.  The cached
early return passes the stored (possibly null) user id through and carries
no `appId` field. -/
structure InitResult where
  db : Bool
  auth : Bool
  userId : Option String
  appId : Option String
deriving DecidableEq, Repr

/-- `initializeFirebase`: returns the cached services immediately when the
module is already initialized; otherwise parses the configuration, sets up
the services, signs in, and stores the user id.  Both failure paths set
`currentUserId` to `currentUserId || crypto.randomUUID()`, mark the module
initialized, and throw; a failure after service setup (sign-in) leaves the
service singletons populated, a configuration failure leaves them null. -/
def initializeFirebase (m : FirebaseModule) (env : FirebaseEnv) :
    FirebaseModule × Except String InitResult :=
  if m.isInitialized then
    (m, Except.ok ⟨m.db, m.auth, m.currentUserId, none⟩)
  else if env.configValid = false then
    ({ m with currentUserId := some (jsOr m.currentUserId env.randomUUID),
              isInitialized := true },
     Except.error "Firebase initialization failed.")
  else
    let m1 : FirebaseModule := { m with app := true, db := true, auth := true }
    if env.authSucceeds then
      let userId := jsOr (some env.authUid) env.randomUUID
      ({ m1 with currentUserId := some userId, isInitialized := true },
       Except.ok ⟨true, true, some userId,
         some (env.appIdVar.getD "default-app-id")⟩)
    else
      ({ m1 with currentUserId := some (jsOr m.currentUserId env.randomUUID),
                 isInitialized := true },
       Except.error "Firebase initialization failed.")

/-- Component identity/connection state managed by `setupFirebase`
(`db`, `userId`, `appId`). -/
structure ComponentIds where
  db : Bool
  userId : String
  appId : String
deriving DecidableEq, Repr

/-- The component state before `setupFirebase` runs
(`'Initializing...'`, `'default-app-id'`, null handle). -/
def initialComponentIds : ComponentIds :=
  ⟨false, "Initializing...", "default-app-id"⟩

/-- The component's `setupFirebase`: awaits `initializeFirebase`; on success
stores the returned handle and ids; on a thrown error logs it and sets the
user id to `"Error"`, leaving the Firestore handle null. -/
def setupFirebase (c : ComponentIds) (m : FirebaseModule) (env : FirebaseEnv) :
    FirebaseModule × ComponentIds :=
  match initializeFirebase m env with
  | (m2, Except.ok r) =>
      (m2, { db := r.db, userId := r.userId.getD "", appId := r.appId.getD "" })
  | (m2, Except.error _) =>
      (m2, { c with userId := "Error" })

/-- Local-storage key used by `useLinesPersistence`. -/
def localStorageKey (userId : String) : String :=
  "whiteboard_lines_" ++ userId

/-- Save effect of `useLinesPersistence`: when the Firestore handle is null
it writes the serialized log to local storage under the identity-keyed key;
with a live handle it does nothing. -/
def useLinesPersistenceSave (db : Bool) (userId : String)
    (lines : List Line) : Option (String × Json) :=
  if db = false then some (localStorageKey userId, serializeLines lines)
  else none

/-- Guard of the data-listener effect (`if (!db || !appId) return`): the
bootstrap — and with it `setIsContentReady(true)` — only runs with a live
Firestore handle and a truthy app id. -/
def listenerEffectRuns (c : ComponentIds) : Bool :=
  c.db && !(c.appId = "")

/-- Whether `isContentReady` can ever become true after mount:
`setIsContentReady(true)` is reached only inside the bootstrap gated by
`listenerEffectRuns`. -/
def readyAfterMount (c : ComponentIds) : Bool :=
  listenerEffectRuns c

/-- C10: `initializeFirebase` is call-once idempotent, including after a
failure.  A call on an initialized module leaves the module untouched and
returns the cached services and user id without throwing; and a first call
that fails on configuration still marks the module initialized with null
services, so every later call returns those (null) cached services instead
of retrying or throwing. -/
theorem initializeFirebase_call_once (m : FirebaseModule)
    (env env2 : FirebaseEnv)
    (hinit : m.isInitialized = true) (hbad : env2.configValid = false) :
    initializeFirebase m env =
        (m, Except.ok ⟨m.db, m.auth, m.currentUserId, none⟩) ∧
      (initializeFirebase initialFirebaseModule env2).1.isInitialized = true ∧
      (initializeFirebase initialFirebaseModule env2).1.db = false ∧
      ∀ env3,
        initializeFirebase (initializeFirebase initialFirebaseModule env2).1 env3 =
          ((initializeFirebase initialFirebaseModule env2).1,
           Except.ok ⟨false, false, some env2.randomUUID, none⟩) := by
  refine ⟨by simp [initializeFirebase, hinit], ?_, ?_, ?_⟩
  · simp [initializeFirebase, initialFirebaseModule, hbad]
  · simp [initializeFirebase, initialFirebaseModule, hbad]
  · intro env3
    simp [initializeFirebase, initialFirebaseModule, hbad, jsOr]

/-- Witness for C10 at a concrete initialized module and failing
environment. -/
theorem initializeFirebase_call_once_witness :
    initializeFirebase ⟨true, true, true, some "uid-1", true⟩
          ⟨none, true, true, "x", "y"⟩ =
        (⟨true, true, true, some "uid-1", true⟩,
         Except.ok ⟨true, true, some "uid-1", none⟩) ∧
      (initializeFirebase initialFirebaseModule
          ⟨none, false, true, "", "rand-1"⟩).1.isInitialized = true ∧
      (initializeFirebase initialFirebaseModule
          ⟨none, false, true, "", "rand-1"⟩).1.db = false ∧
      ∀ env3,
        initializeFirebase (initializeFirebase initialFirebaseModule
            ⟨none, false, true, "", "rand-1"⟩).1 env3 =
          ((initializeFirebase initialFirebaseModule
              ⟨none, false, true, "", "rand-1"⟩).1,
           Except.ok ⟨false, false, some "rand-1", none⟩) :=
  initializeFirebase_call_once ⟨true, true, true, some "uid-1", true⟩
    ⟨none, true, true, "x", "y"⟩ ⟨none, false, true, "", "rand-1"⟩ rfl rfl

/-- C6 counterexample: with identity acquisition failing and
`crypto.randomUUID()` producing `"local-random-id"`, the component's user id
becomes `"Error"` — not the locally generated random id — so local storage
is keyed `"whiteboard_lines_Error"`, and the readiness gate never opens, so
the board does not continue operating (pointer input stays ignored on the
loading screen). -/
theorem connectivity_fallback_counterexample :
    (setupFirebase initialComponentIds initialFirebaseModule
        ⟨none, false, true, "", "local-random-id"⟩).2.userId = "Error" ∧
      (setupFirebase initialComponentIds initialFirebaseModule
          ⟨none, false, true, "", "local-random-id"⟩).2.userId ≠
        "local-random-id" ∧
      localStorageKey (setupFirebase initialComponentIds initialFirebaseModule
          ⟨none, false, true, "", "local-random-id"⟩).2.userId =
        "whiteboard_lines_Error" ∧
      readyAfterMount (setupFirebase initialComponentIds initialFirebaseModule
          ⟨none, false, true, "", "local-random-id"⟩).2 = false := by
  refine ⟨rfl, by decide, rfl, rfl⟩

/-- C6 (amended): when identity acquisition fails (invalid configuration or
failed sign-in), no exception escapes `setupFirebase` — the component
continues with `userId = "Error"` and a null Firestore handle; local-storage
writes are keyed `"whiteboard_lines_Error"` (not by the random id, which
stays buried in the firebase module); the readiness gate stays closed, so
the board remains on the loading screen and input is ignored.  A failed
bootstrap point-read, by contrast, still attaches the live subscription and
reaches the ready mark. -/
theorem connectivity_failure_behavior (env : FirebaseEnv) (lines : List Line)
    (hfail : env.configValid = false ∨ env.authSucceeds = false) :
    (setupFirebase initialComponentIds initialFirebaseModule env).2.userId =
        "Error" ∧
      (setupFirebase initialComponentIds initialFirebaseModule env).2.db =
        false ∧
      useLinesPersistenceSave
          (setupFirebase initialComponentIds initialFirebaseModule env).2.db
          (setupFirebase initialComponentIds initialFirebaseModule env).2.userId
          lines =
        some ("whiteboard_lines_Error", serializeLines lines) ∧
      readyAfterMount
          (setupFirebase initialComponentIds initialFirebaseModule env).2 =
        false ∧
      SyncEvent.attachListener ∈ initializeDataAndListener (Except.error ()) ∧
      SyncEvent.markReady ∈ initializeDataAndListener (Except.error ()) := by
  have hsetup : (setupFirebase initialComponentIds initialFirebaseModule env).2 =
      ⟨false, "Error", "default-app-id"⟩ := by
    rcases hfail with h | h
    · simp [setupFirebase, initializeFirebase, initialFirebaseModule,
        initialComponentIds, h]
    · rcases hc : env.configValid with hv | hv
      · simp [setupFirebase, initializeFirebase, initialFirebaseModule,
          initialComponentIds, hc]
      · simp [setupFirebase, initializeFirebase, initialFirebaseModule,
          initialComponentIds, hc, h]
  rw [hsetup]
  refine ⟨rfl, rfl, rfl, rfl, ?_, ?_⟩
  · simp [initializeDataAndListener]
  · simp [initializeDataAndListener]

/-- Witness for the amended C6 at a concrete failing environment. -/
theorem connectivity_failure_behavior_witness :
    (setupFirebase initialComponentIds initialFirebaseModule
        ⟨none, false, true, "", "rand-2"⟩).2.userId = "Error" ∧
      (setupFirebase initialComponentIds initialFirebaseModule
          ⟨none, false, true, "", "rand-2"⟩).2.db = false ∧
      useLinesPersistenceSave
          (setupFirebase initialComponentIds initialFirebaseModule
              ⟨none, false, true, "", "rand-2"⟩).2.db
          (setupFirebase initialComponentIds initialFirebaseModule
              ⟨none, false, true, "", "rand-2"⟩).2.userId
          [] =
        some ("whiteboard_lines_Error", serializeLines []) ∧
      readyAfterMount
          (setupFirebase initialComponentIds initialFirebaseModule
              ⟨none, false, true, "", "rand-2"⟩).2 = false ∧
      SyncEvent.attachListener ∈ initializeDataAndListener (Except.error ()) ∧
      SyncEvent.markReady ∈ initializeDataAndListener (Except.error ()) :=
  connectivity_failure_behavior ⟨none, false, true, "", "rand-2"⟩ []
    (Or.inl rfl)

end CollabWhiteboard
